import Mathlib

set_option maxHeartbeats 2000000
set_option maxRecDepth 8000

/-!
Verification development for the HED colleges monitoring dashboard
(src/app.py).  The Python source is embedded shallowly:

* a CSV cell after `pd.read_csv` is `Cell` (an empty field becomes the
  missing-value marker NaN, modelled by `Cell.na`; every other field is a
  string; pandas dtype inference for all-numeric untouched columns is not
  modelled, it affects none of the claims);
* the cleaning block of `load_data` (header strip, rename map, `reindex`
  onto the ten kept columns, `to_numeric(...).fillna(0).astype(int)` on
  Salary, `str.strip` on the five string columns) is `normalize`;
  `pd.reindex` onto an axis with duplicate labels raises, modelled by the
  `Except.error` branch of `normalize`;
* `pd.to_numeric(_, errors := coerce)` is modelled over exact decimal
  values: a finite literal (optional sign, digits, fraction, exponent)
  parses exactly, an infinity spelling parses to an infinity, anything
  else (NaN spellings included, which `fillna(0)` erases) coerces to NaN
  and then 0; a parsed infinity, or a finite literal at or beyond the
  float64 overflow threshold, makes `astype(int)` raise the non-finite
  cast error, which no except catches; value-level float64 rounding and
  the platform-undefined int64 cast at extreme magnitudes are not
  modelled, and no theorem evaluates a Salary cell where they differ;
* `Series.str.contains` compiles its argument as a Python regular
  expression (`regex=True` default).  The fragment of `re` exercised by the
  program is embedded: literal characters, the dot, grouping, alternation
  and the postfix quantifiers, with a Brzozowski-derivative matcher;
  character classes, anchors, escapes and a stray brace, which the
  dashboard never produces, are modelled as parse errors;
* Python `str.lower` is modelled on ASCII.
-/

namespace HED

/-- One CSV field as `pd.read_csv` delivers it: an empty field becomes the
missing-value marker NaN (`na`), anything else is its text. -/
inductive Cell where
  | na : Cell
  | s (v : String) : Cell
deriving DecidableEq

/-- Uppercase-to-lowercase ASCII table. -/
def upperMap : List (Char × Char) :=
  [('A', 'a'), ('B', 'b'), ('C', 'c'), ('D', 'd'), ('E', 'e'), ('F', 'f'),
   ('G', 'g'), ('H', 'h'), ('I', 'i'), ('J', 'j'), ('K', 'k'), ('L', 'l'),
   ('M', 'm'), ('N', 'n'), ('O', 'o'), ('P', 'p'), ('Q', 'q'), ('R', 'r'),
   ('S', 's'), ('T', 't'), ('U', 'u'), ('V', 'v'), ('W', 'w'), ('X', 'x'),
   ('Y', 'y'), ('Z', 'z')]

/-- ASCII model of Python `str.lower` on one character. -/
def pyToLower (c : Char) : Char :=
  match upperMap.find? fun p => p.1 == c with
  | some p => p.2
  | none => c

/-- ASCII model of Python `str.lower`. -/
def pyLower (s : String) : String := String.mk (s.data.map pyToLower)

/-- Model of Python `str.strip`: drop leading and trailing whitespace. -/
def pyStrip (s : String) : String :=
  String.mk (((s.data.dropWhile Char.isWhitespace).reverse.dropWhile
    Char.isWhitespace).reverse)

/-- Boolean test that `p` is a prefix of `s`. -/
def prefB : List Char → List Char → Bool
  | [], _ => true
  | _ :: _, [] => false
  | a :: p, b :: s => a == b && prefB p s

/-- Boolean test that `p` occurs contiguously inside `s`
(Python `p in s`, i.e. literal substring containment). -/
def subB (p : List Char) : List Char → Bool
  | [] => p.isEmpty
  | b :: s => prefB p (b :: s) || subB p s

/-- Proposition that `p` is a prefix of `s`. -/
def PrefOf (p s : List Char) : Prop := ∃ t, p ++ t = s

/-- Proposition that `p` occurs contiguously inside `s`. -/
def SubOf (p s : List Char) : Prop := ∃ u v, s = u ++ (p ++ v)

/-- The ASCII characters that are special in a Python regular expression
(the `re.escape` set).  The two brace characters are written by code. -/
def metaChars : List Char :=
  ['.', '^', '$', '*', '+', '?', Char.ofNat 123, Char.ofNat 125,
   '[', ']', '\\', '|', '(', ')']

/-- Regular expressions, the fragment of Python `re` the dashboard can
reach: literals, the any-character dot, alternation, concatenation and
star (plus and question are desugared by the pattern reader). -/
inductive Re where
  | empty : Re
  | eps : Re
  | lit (c : Char) : Re
  | dot : Re
  | alt (r1 r2 : Re) : Re
  | cat (r1 r2 : Re) : Re
  | star (r : Re) : Re
deriving DecidableEq

/-- The regular expression matching exactly one literal string. -/
def ofLits : List Char → Re
  | [] => .eps
  | c :: cs => .cat (.lit c) (ofLits cs)

/-- Does the expression accept the empty string? -/
def nullable : Re → Bool
  | .empty => false
  | .eps => true
  | .lit _ => false
  | .dot => false
  | .alt r1 r2 => nullable r1 || nullable r2
  | .cat r1 r2 => nullable r1 && nullable r2
  | .star _ => true

/-- Brzozowski derivative; the dot matches any character except a
newline, as in Python `re` without DOTALL. -/
def derivR : Re → Char → Re
  | .empty, _ => .empty
  | .eps, _ => .empty
  | .lit c, a => if a = c then .eps else .empty
  | .dot, a => if a = '\n' then .empty else .eps
  | .alt r1 r2, a => .alt (derivR r1 a) (derivR r2 a)
  | .cat r1 r2, a =>
      if nullable r1 then .alt (.cat (derivR r1 a) r2) (derivR r2 a)
      else .cat (derivR r1 a) r2
  | .star r, a => .cat (derivR r a) (.star r)

/-- Whole-string match via iterated derivatives. -/
def matchesR (r : Re) (t : List Char) : Bool := nullable (t.foldl derivR r)

/-- Python `re.search` as a Boolean: some contiguous piece of `s` matches
`r`. -/
def reSearch (r : Re) (s : List Char) : Bool :=
  (List.range (s.length + 1)).any fun i =>
    (List.range (s.length - i + 1)).any fun j =>
      matchesR r ((s.drop i).take j)

/-- A lazy-quantifier question mark directly after a quantifier is
consumed; laziness does not change the Boolean search semantics. -/
def lazySkip : List Char → List Char
  | '?' :: rest => rest
  | cs => cs

/-- Postfix quantifiers after an atom, as Python `re` reads them. -/
def parseQuants (r : Re) (cs : List Char) : Re × List Char :=
  match cs with
  | [] => (r, [])
  | c :: rest =>
    if c = '*' then (.star r, lazySkip rest)
    else if c = '+' then (.cat r (.star r), lazySkip rest)
    else if c = '?' then (.alt r .eps, lazySkip rest)
    else (r, c :: rest)

/-- The three layers of the pattern grammar. -/
inductive PMode where
  | atom : PMode
  | cseq : PMode
  | alts : PMode

/-- Fuel-indexed recursive-descent reading of a Python pattern: one atom,
a concatenation sequence, or an alternation.  Constructs outside the
embedded fragment (classes, anchors, escapes, a stray brace) report an
error. -/
def parseRe : Nat → PMode → List Char → Except String (Re × List Char)
  | 0, _, _ => .error "internal fuel exhausted"
  | Nat.succ f, .atom, cs =>
      match cs with
      | [] => .error "nothing to repeat"
      | c :: rest =>
        if c = '.' then .ok (.dot, rest)
        else if c = '(' then
          match parseRe f .alts rest with
          | .error e => .error e
          | .ok (r, rest') =>
            match rest' with
            | ')' :: rest2 => .ok (r, rest2)
            | _ => .error "missing ), unterminated subpattern"
        else if c ∈ metaChars then .error "unsupported metacharacter"
        else .ok (.lit c, rest)
  | Nat.succ f, .cseq, cs =>
      match cs with
      | [] => .ok (.eps, [])
      | c :: _ =>
        if c = ')' ∨ c = '|' then .ok (.eps, cs)
        else
          match parseRe f .atom cs with
          | .error e => .error e
          | .ok (a, rest) =>
            match parseQuants a rest with
            | (a2, rest2) =>
              match parseRe f .cseq rest2 with
              | .error e => .error e
              | .ok (b, rest3) => .ok (.cat a2 b, rest3)
  | Nat.succ f, .alts, cs =>
      match parseRe f .cseq cs with
      | .error e => .error e
      | .ok (r, rest) =>
        match rest with
        | '|' :: rest' =>
          match parseRe f .alts rest' with
          | .error e => .error e
          | .ok (r2, rest2) => .ok (.alt r r2, rest2)
        | _ => .ok (r, rest)

/-- Compile a whole pattern, as `re.compile` inside `str.contains`.
An unconsumed closing parenthesis is the unbalanced-parenthesis error. -/
def parsePattern (s : String) : Except String Re :=
  match parseRe (3 * s.data.length + 3) .alts s.data with
  | .error e => .error e
  | .ok (r, []) => .ok r
  | .ok (_, _) => .error "unbalanced parenthesis"

/-- A raw table as read from CSV text: a header row and data rows.
`pd.read_csv` pads a short data row with NaN, which cell lookup below
reproduces with the `Cell.na` default. -/
structure RawTable where
  headers : List String
  rows : List (List Cell)

/-- One normalized record (app.py line 55 fixes the ten kept columns).
`District`, `College`, `Category`, `Action` and `Reason` are run through
`astype(str).str.strip()` (line 62) and so are always strings; `Gender`,
`Type` (field `Type'`, since `Type` is reserved in Lean), `Name` and
`Designation` are left as loaded and can still be NaN; `Salary` is the
integer produced by line 59. -/
structure Record where
  District : String
  College : String
  Gender : Cell
  Type' : Cell
  Category : String
  Action : String
  Name : Cell
  Designation : Cell
  Salary : Int
  Reason : String
deriving DecidableEq

/-- Python `str()` of a cell: NaN prints as "nan". -/
def pyStr : Cell → String
  | .na => "nan"
  | .s v => v

/-- Composition `astype(str).str.strip()` on one cell. -/
def cleanStr (c : Cell) : String := pyStrip (pyStr c)

/-- Value of a decimal digit string. -/
def digitsToNat (ds : List Char) : Nat :=
  ds.foldl (fun acc d => acc * 10 + (d.toNat - 48)) 0

/-- An exact finite decimal value, `num / 10 ^ exp10` (kept unreduced so
that every arithmetic step is structural). -/
structure Dec where
  num : Int
  exp10 : Nat
deriving DecidableEq

/-- Reading of a finite decimal literal (optional sign, digits, optional
fraction, optional exponent) as an exact decimal value; anything else is
not a finite literal. -/
def parseDecimal? (cs : List Char) : Option Dec :=
  let p := match cs with
    | '+' :: rest => ((1 : Int), rest)
    | '-' :: rest => ((-1 : Int), rest)
    | _ => ((1 : Int), cs)
  let sgn := p.1
  let cs1 := p.2
  let d1 := cs1.takeWhile Char.isDigit
  let cs2 := cs1.dropWhile Char.isDigit
  let q := match cs2 with
    | '.' :: rest => (rest.takeWhile Char.isDigit, rest.dropWhile Char.isDigit)
    | _ => (([] : List Char), cs2)
  let d2 := q.1
  let cs3 := q.2
  if d1.isEmpty && d2.isEmpty then none
  else
    let n : Nat := digitsToNat (d1 ++ d2)
    let k : Nat := d2.length
    match cs3 with
    | [] => some { num := sgn * n, exp10 := k }
    | e :: rest =>
      if e = 'e' ∨ e = 'E' then
        let ep := match rest with
          | '+' :: r => (true, r)
          | '-' :: r => (false, r)
          | _ => (true, rest)
        let ed := ep.2.takeWhile Char.isDigit
        let r3 := ep.2.dropWhile Char.isDigit
        if ed.isEmpty || !r3.isEmpty then none
        else if ep.1 then
          let ex := digitsToNat ed
          if k ≤ ex then some { num := sgn * n * (10 ^ (ex - k) : Nat), exp10 := 0 }
          else some { num := sgn * n, exp10 := k - ex }
        else some { num := sgn * n, exp10 := k + digitsToNat ed }
      else none

/-- Truncation toward zero, as numpy `astype(int)` on an in-range finite
float. -/
def decTrunc (d : Dec) : Int :=
  if 0 ≤ d.num then ((d.num.toNat / 10 ^ d.exp10 : Nat) : Int)
  else -(((-d.num).toNat / 10 ^ d.exp10 : Nat) : Int)

/-- What one Salary cell parses to under `pd.to_numeric(_, errors :=
coerce)`: a finite value or an IEEE infinity.  Spellings of NaN are
folded into the parse failures, since both coerce to NaN and are erased
by `fillna(0)`. -/
inductive PyNum where
  | fin (d : Dec) : PyNum
  | pinf : PyNum
  | ninf : PyNum
deriving DecidableEq

/-- Model of `pd.to_numeric(_, errors := coerce)` on one string cell: an
infinity spelling (inf or infinity, optional sign, any letter case)
parses to an infinity, a finite decimal literal parses to its exact
value, anything else coerces to NaN (`none`). -/
def parsePyNum? (cs : List Char) : Option PyNum :=
  let low := cs.map pyToLower
  if low = "inf".data ∨ low = "infinity".data
      ∨ low = "+inf".data ∨ low = "+infinity".data then some .pinf
  else if low = "-inf".data ∨ low = "-infinity".data then some .ninf
  else (parseDecimal? cs).map .fin

/-- Exact threshold at or above which a positive real rounds to IEEE
float64 infinity: half an ulp above the largest finite double. -/
def f64Thresh : Nat := 2 ^ 1024 - 2 ^ 970

/-- Whether the decimal value rounds to an infinite float64, so that
reading it through float64 already overflows. -/
def decOverflows (d : Dec) : Bool :=
  f64Thresh * 10 ^ d.exp10 ≤ d.num.natAbs

/-- Rest of line 59 after the parse: `fillna(0).astype(int)` on the
parsed column value.  A NaN (parse failure) is filled with 0; a
non-finite value — a parsed infinity, or a finite literal that already
overflows float64 — makes `astype(int)` raise the IntCastingNaNError,
which no except in app.py catches.  The value of the cast on finite
floats beyond the int64 range is platform-undefined and not modelled;
no theorem evaluates a Salary cell there. -/
def castSalary : Option PyNum → Except String Int
  | some (.fin d) =>
    if decOverflows d then
      .error "Cannot convert non-finite values (NA or inf) to integer"
    else .ok (decTrunc d)
  | some .pinf => .error "Cannot convert non-finite values (NA or inf) to integer"
  | some .ninf => .error "Cannot convert non-finite values (NA or inf) to integer"
  | none => .ok 0

/-- Line 59: `pd.to_numeric(df[Salary], errors=coerce).fillna(0).astype(int)`
applied to one cell: 0 for a missing cell, otherwise the parse followed
by the cast. -/
def coerceSalary : Cell → Except String Int
  | .na => .ok 0
  | .s v => castSalary (parsePyNum? (pyStrip v).data)

/-- The rename map of app.py lines 48-52, applied to one stripped header. -/
def renameCol (h : String) : String :=
  if h = "College Gender" then "Gender"
  else if h = "College Type" then "Type"
  else if h = "Salary Deducted" then "Salary"
  else h

/-- Lines 45-52: strip every header, then apply the rename map. -/
def renamedHeaders (t : RawTable) : List String :=
  t.headers.map fun h => renameCol (pyStrip h)

/-- Index of the first column with the given name. -/
def colIdx (name : String) : List String → Option Nat
  | [] => none
  | h :: t => if h = name then some 0 else (colIdx name t).map (· + 1)

/-- The cell of `row` under column `name`: a present column yields the
row cell (NaN when the row is short, as read_csv pads), a column absent
from the input is created filled with the empty string
(`reindex(columns, fill_value := empty)`, line 56). -/
def colCell (hdrs : List String) (row : List Cell) (name : String) : Cell :=
  match colIdx name hdrs with
  | some i => row.getD i Cell.na
  | none => Cell.s ""

/-- Line 55 of app.py. -/
def COLUMNS_TO_KEEP : List String :=
  ["District", "College", "Gender", "Type", "Category", "Action", "Name",
   "Designation", "Salary", "Reason"]

/-- One row through the reindex / Salary coercion / string cleanup block
(lines 54-63), fused row-wise: the pandas column operations are
independent per row, and a Salary cell whose cast raises aborts the
whole load. -/
def buildRecord (hdrs : List String) (row : List Cell) :
    Except String Record :=
  match coerceSalary (colCell hdrs row "Salary") with
  | .error e => .error e
  | .ok sal => .ok
    { District := cleanStr (colCell hdrs row "District")
      College := cleanStr (colCell hdrs row "College")
      Gender := colCell hdrs row "Gender"
      Type' := colCell hdrs row "Type"
      Category := cleanStr (colCell hdrs row "Category")
      Action := cleanStr (colCell hdrs row "Action")
      Name := colCell hdrs row "Name"
      Designation := colCell hdrs row "Designation"
      Salary := sal
      Reason := cleanStr (colCell hdrs row "Reason") }

/-- Build every row, propagating the first raised error: the column-wise
pandas pipeline aborts the whole load as soon as the Salary cast
raises. -/
def mapRows (f : List Cell → Except String Record) :
    List (List Cell) → Except String (List Record)
  | [] => .ok []
  | row :: rows =>
    match f row with
    | .error e => .error e
    | .ok r =>
      match mapRows f rows with
      | .error e => .error e
      | .ok rs => .ok (r :: rs)

/-- The cleaning block of `load_data` (lines 44-65).  `df.reindex` raises
when the renamed header axis carries duplicate labels (for instance when
both "Gender" and "College Gender" arrive), and the Salary cast raises
on a non-finite value; otherwise every row becomes one record. -/
def normalize (t : RawTable) : Except String (List Record) :=
  if (renamedHeaders t).Nodup then
    mapRows (buildRecord (renamedHeaders t)) t.rows
  else .error "cannot reindex on an axis with duplicate labels"

/-- One data row of MOCK_CSV_DATA (lines 10-25): only district, college,
gender, name, designation, scale, salary, reason and action vary; the
Remarks field is empty in every row and so reads as NaN. -/
def mkRow (district college gender name designation scale salary reason
    action : String) : List Cell :=
  [.s district, .s college, .s gender, .s "General", .s "Employee",
   .s "October", .s action, .s name, .s designation, .s scale, .s salary,
   .s reason, .s "Principal", .na, .s "October"]

/-- The embedded fallback dataset MOCK_CSV_DATA after `pd.read_csv`:
the header line and its fifteen data rows, quoted fields unquoted. -/
def mockTable : RawTable :=
  { headers :=
      ["District", "College", "College Gender", "College Type", "Category",
       "Action Taken for the Month", "Action", "Name", "Designation",
       "Scale", "Salary Deducted", "Reason", "Action By", "Remarks",
       "Action for Month"]
    rows :=
      [mkRow "Bannu" "01. Govt Postgraduate College, Bannu" "Male"
         "Asmat ullah" "Naib Qasid" "3" "12000" "Habitual Absentiesm"
         "Explanation",
       mkRow "Bannu" "01. Govt Postgraduate College, Bannu" "Male"
         "Ayaz Ghori" "Mali" "3" "10000" "Habitual Absentiesm"
         "Explanation",
       mkRow "Bannu" "01. Govt Postgraduate College, Bannu" "Male"
         "Mohib ur Rehman" "Naib Qasid" "3" "0" "Proxy Attendance"
         "Explanation",
       mkRow "Bannu" "01. Govt Postgraduate College, Bannu" "Male"
         "Zohaib Khan" "Lecturer" "17" "0" "Proxy Attendance"
         "Explanation",
       mkRow "Bannu" "02. Govt Degree College No. 2, Bannu" "Male"
         "Faqir Khan Assoc Prof" "Mali" "3" "0" "Habitual Absentiesm"
         "Warning",
       mkRow "Bannu" "02. Govt Degree College No. 2, Bannu" "Male"
         "Shams ud Din" "Naib Qasid" "3" "0" "Habitual Absentiesm"
         "Warning",
       mkRow "Bannu" "02. Govt Degree College No. 2, Bannu" "Male"
         "Saad Ullah Assoc Prof" "Lecturer" "17" "0" "Proxy Attendance"
         "Warning",
       mkRow "Bannu" "02. Govt Degree College No. 2, Bannu" "Male"
         "Nazir Ahmad Shah" "Naib Qasid" "3" "0" "Proxy Attendance"
         "Warning",
       mkRow "Bannu" "02. Govt Degree College No. 2, Bannu" "Male"
         "Hazrat Ali Khan" "Mali" "3" "0" "Habitual Absentiesm"
         "Warning",
       mkRow "Bannu" "09. Govt Degree College, Kakki, Bannu" "Male"
         "Farid Zia A/P English" "Lecturer" "17" "0" "Habitual Absentiesm"
         "Warning",
       mkRow "NWTD" "18. Govt Girls Degree College, Miran Shah, NWTD"
         "Female" "Safi Ullah" "Naib Qasid" "3" "0" "Habitual Absentiesm"
         "Inquiry",
       mkRow "NWTD" "18. Govt Girls Degree College, Miran Shah, NWTD"
         "Female" "Usra Shahid Lab attendent" "Mali" "3" "0"
         "Proxy Attendance" "Inquiry",
       mkRow "D.I. Khan" "28. Govt Degree College, Paniala, D.I. Khan"
         "Male" "Muhammad Farasat Ullah" "Naib Qasid" "3" "0"
         "Proxy Attendance" "Warning",
       mkRow "Kohat" "61. Govt Postgraduate College, Kohat" "Male"
         "Sadiq Noor" "Naib Qasid" "3" "0" "Habitual Absentiesm"
         "Warning",
       mkRow "Lakki Marwat"
         "85. Govt Degree College, Serai Naurang, Lakki Marwat" "Male"
         "Attiq Ullah Shah" "Lecturer" "17" "0" "Habitual Absentiesm"
         "Warning"] }

/-- The records the fallback dataset normalizes to. -/
def fallbackRecords : List Record :=
  match normalize mockTable with
  | .ok rs => rs
  | .error _ => []

/-- Outcome of the external `pd.read_csv(url)` call: the parsed table, or
the text of the exception it raised (network or parse failure). -/
inductive Fetched where
  | ok (t : RawTable) : Fetched
  | err (msg : String) : Fetched

/-- Model of `load_data` (lines 30-65): first component the streamlit info or
error message (quotation marks of the UI text elided), second the record
set.  An empty url loads the fallback; a failing fetch is caught and an
empty frame returned (line 42), skipping normalization. -/
def load_data (fetch : Fetched) (url : String) :
    Option String × Except String (List Record) :=
  if url = "" then
    (some "Showing sample data. Enter your Google Sheet Publish to Web CSV link above to load live data.",
     normalize mockTable)
  else
    match fetch with
    | .err e =>
      (some ("Error loading data from URL. Please check the link format. Details: " ++ e),
       .ok [])
    | .ok t => (none, normalize t)

/-- Line 198: `row.astype(str)` over the ten kept columns, in column
order. -/
def rowStrs (r : Record) : List String :=
  [r.District, r.College, pyStr r.Gender, pyStr r.Type', r.Category,
   r.Action, pyStr r.Name, pyStr r.Designation, toString r.Salary,
   r.Reason]

/-- Line 198 for one row: lower every field string, then
`str.contains(search_lower)` with the default regex interpretation, then
`.any()`.  A bad pattern raises, modelled by the error. -/
def rowMatchesE (term : String) (r : Record) : Except String Bool :=
  match parsePattern (pyLower term) with
  | .error e => .error e
  | .ok re => .ok ((rowStrs r).any fun s => reSearch re (pyLower s).data)

/-- Boolean filter over the rows, first raised row error wins. -/
def filterRows (term : String) : List Record → Except String (List Record)
  | [] => .ok []
  | r :: rs =>
    match rowMatchesE term r with
    | .error e => .error e
    | .ok b =>
      match filterRows term rs with
      | .error e => .error e
      | .ok rest => .ok (if b then r :: rest else rest)

/-- Lines 196-200: the query/filter engine of `main`.  An empty term
short-circuits before any pattern work. -/
def filterRecords (term : String) (rs : List Record) :
    Except String (List Record) :=
  if term = "" then .ok rs else filterRows term rs

/-- The per-field case-insensitive literal-substring predicate the
specification describes for the filter. -/
def claimMatch (term : String) (r : Record) : Bool :=
  (rowStrs r).any fun s => subB (pyLower term).data (pyLower s).data

/-- The seven scalars of `calculate_kpis` (lines 73-81). -/
structure KPIs where
  TotalActions : Nat
  UniqueColleges : Nat
  TotalSalaryDeducted : Int
  EmployeeIssues : Nat
  Warnings : Nat
  Explanations : Nat
  Inquiries : Nat
deriving DecidableEq

/-- Model of `Series.str.contains(pat, case=False)`: the pattern is compiled as a
regex, case-insensitively; modelled by lowering both sides (ASCII).  The
three patterns the program uses are fixed words, so the compile cannot
fail; the error branch is unreachable for them. -/
def pyContainsCF (pat s : String) : Bool :=
  match parsePattern (pyLower pat) with
  | .ok r => reSearch r (pyLower s).data
  | .error _ => false

/-- Distinct values in order of first appearance. -/
def firstDedupAux (seen : List String) : List String → List String
  | [] => []
  | a :: l =>
    if a ∈ seen then firstDedupAux seen l
    else a :: firstDedupAux (a :: seen) l

/-- Distinct values in order of first appearance (`Series.nunique`
counts these; `value_counts` groups by them). -/
def firstDedup (l : List String) : List String := firstDedupAux [] l

/-- Model of `calculate_kpis` (lines 68-82): an empty frame yields the empty dict,
modelled as `none`. -/
def calculate_kpis (rs : List Record) : Option KPIs :=
  if rs.isEmpty then none
  else some
    { TotalActions := rs.length
      UniqueColleges := (firstDedup (rs.map fun r => r.College)).length
      TotalSalaryDeducted := (rs.map fun r => r.Salary).sum
      EmployeeIssues := rs.countP fun r => r.Category == "Employee"
      Warnings := rs.countP fun r => pyContainsCF "Warning" r.Action
      Explanations := rs.countP fun r => pyContainsCF "Explanation" r.Action
      Inquiries := rs.countP fun r => pyContainsCF "Inquiry" r.Action }

/-- Count-descending order on labelled counts. -/
def cntGE (p q : String × Nat) : Prop := q.2 ≤ p.2

instance : DecidableRel cntGE := fun p q => Nat.decLe q.2 p.2

instance : IsTotal (String × Nat) cntGE :=
  ⟨fun p q => (Nat.le_total q.2 p.2).imp id id⟩

instance : IsTrans (String × Nat) cntGE :=
  ⟨fun _ _ _ h1 h2 => Nat.le_trans h2 h1⟩

/-- Model of `Series.value_counts()`: group by exact value, count, order by count
descending; ties keep first-appearance order (stable sort over the
first-appearance list). -/
def value_counts (ls : List String) : List (String × Nat) :=
  List.insertionSort cntGE ((firstDedup ls).map fun l => (l, ls.count l))

/-- Line 112: `df[Reason].value_counts().nlargest(n)` — the n largest
counts, ties kept in order of appearance. -/
def topReasons (rs : List Record) (n : Nat) : List (String × Nat) :=
  (List.insertionSort cntGE (value_counts (rs.map fun r => r.Reason))).take n

/-- A record with every string field empty and Salary 0, used as a small
concrete filter input. -/
def demoRec : Record :=
  { District := "", College := "", Gender := Cell.s "", Type' := Cell.s ""
    Category := "", Action := "", Name := Cell.s ""
    Designation := Cell.s "", Salary := 0, Reason := "" }

/-- The two-header table on which the rename map makes the column axis
carry the label Gender twice. -/
def dupTable : RawTable :=
  { headers := ["Gender", "College Gender"], rows := [[Cell.s "M", Cell.s "F"]] }

/-- A one-column table whose Salary cells exercise the empty, plain,
unparsable and fractional cases. -/
def salTable : RawTable :=
  { headers := ["Salary Deducted"]
    rows := [[Cell.s ""], [Cell.s "12000"], [Cell.s "abc"], [Cell.s "7.9"]] }

/-- A one-column table whose single Salary cell spells an IEEE
infinity. -/
def infTable : RawTable :=
  { headers := ["Salary Deducted"], rows := [[Cell.s "inf"]] }

/-- A table with a missing Gender cell and a negative Salary cell. -/
def negTable : RawTable :=
  { headers := ["Gender", "Salary Deducted"], rows := [[Cell.na, Cell.s "-5"]] }

/-- The record `negTable` normalizes to. -/
def negRec : Record :=
  { District := "", College := "", Gender := Cell.na, Type' := Cell.s ""
    Category := "", Action := "", Name := Cell.s ""
    Designation := Cell.s "", Salary := -5, Reason := "" }

/-- A one-cell table with an ordinary Gender value. -/
def wTable : RawTable := { headers := ["Gender"], rows := [[Cell.s "M"]] }

/-- The record `wTable` normalizes to. -/
def wRec : Record :=
  { District := "", College := "", Gender := Cell.s "M", Type' := Cell.s ""
    Category := "", Action := "", Name := Cell.s ""
    Designation := Cell.s "", Salary := 0, Reason := "" }

/-! ## Substring and case lemmas -/

theorem prefB_iff (p : List Char) : ∀ s : List Char, prefB p s = true ↔ PrefOf p s := by
  induction p with
  | nil =>
    intro s
    simp only [prefB, PrefOf, List.nil_append, true_iff]
    exact ⟨s, rfl⟩
  | cons a p ih =>
    intro s
    cases s with
    | nil =>
      simp only [prefB, PrefOf, Bool.false_eq_true, false_iff]
      rintro ⟨t, h⟩
      cases h
    | cons b s =>
      simp only [prefB, Bool.and_eq_true, beq_iff_eq, ih s, PrefOf]
      constructor
      · rintro ⟨rfl, t, rfl⟩
        exact ⟨t, rfl⟩
      · rintro ⟨t, h⟩
        injection h with h1 h2
        exact ⟨h1, t, h2⟩

theorem subOf_nil (p : List Char) : SubOf p [] ↔ p = [] := by
  constructor
  · rintro ⟨u, v, h⟩
    rcases List.append_eq_nil.mp h.symm with ⟨rfl, h2⟩
    rcases List.append_eq_nil.mp h2 with ⟨rfl, rfl⟩
    rfl
  · rintro rfl
    exact ⟨[], [], rfl⟩

theorem subOf_cons (p : List Char) (b : Char) (s : List Char) :
    SubOf p (b :: s) ↔ PrefOf p (b :: s) ∨ SubOf p s := by
  constructor
  · rintro ⟨u, v, h⟩
    cases u with
    | nil => exact Or.inl ⟨v, h.symm⟩
    | cons x u =>
      injection h with h1 h2
      exact Or.inr ⟨u, v, h2⟩
  · rintro (⟨t, h⟩ | ⟨u, v, h⟩)
    · exact ⟨[], t, h.symm⟩
    · exact ⟨b :: u, v, by rw [h]; rfl⟩

theorem subB_iff (p : List Char) : ∀ s : List Char, subB p s = true ↔ SubOf p s := by
  intro s
  induction s with
  | nil =>
    simp only [subB, subOf_nil, List.isEmpty_iff]
  | cons b s ih =>
    simp only [subB, Bool.or_eq_true, prefB_iff, ih, subOf_cons]

theorem pyToLower_nonmeta {c : Char} (h : c ∉ metaChars) : pyToLower c ∉ metaChars := by
  unfold pyToLower
  cases hf : upperMap.find? fun p => p.1 == c with
  | none => exact h
  | some p =>
    have hp : p ∈ upperMap := List.mem_of_find?_eq_some hf
    have hall : ∀ q ∈ upperMap, q.2 ∉ metaChars := by decide
    exact hall p hp

theorem map_pyToLower_nonmeta {l : List Char} (h : ∀ c ∈ l, c ∉ metaChars) :
    ∀ c ∈ l.map pyToLower, c ∉ metaChars := by
  intro c hc
  obtain ⟨a, ha, rfl⟩ := List.mem_map.mp hc
  exact pyToLower_nonmeta (h a ha)

theorem pyLower_data (s : String) : (pyLower s).data = s.data.map pyToLower := rfl

/-! ## Derivative matcher on literal patterns -/

theorem matchesR_nil (r : Re) : matchesR r [] = nullable r := rfl

theorem matchesR_cons (r : Re) (a : Char) (t : List Char) :
    matchesR r (a :: t) = matchesR (derivR r a) t := rfl

theorem matchesR_empty : ∀ t : List Char, matchesR .empty t = false := by
  intro t
  induction t with
  | nil => rfl
  | cons a t ih => rw [matchesR_cons]; exact ih

theorem matchesR_alt : ∀ (t : List Char) (r1 r2 : Re),
    matchesR (.alt r1 r2) t = (matchesR r1 t || matchesR r2 t) := by
  intro t
  induction t with
  | nil => intro r1 r2; rfl
  | cons a t ih => intro r1 r2; rw [matchesR_cons]; exact ih (derivR r1 a) (derivR r2 a)

theorem matchesR_cat_empty (r : Re) : ∀ t : List Char, matchesR (.cat .empty r) t = false := by
  intro t
  induction t with
  | nil => rfl
  | cons a t ih => rw [matchesR_cons]; exact ih

theorem matchesR_cat_eps (r : Re) (t : List Char) :
    matchesR (.cat .eps r) t = matchesR r t := by
  cases t with
  | nil => rfl
  | cons a t =>
    rw [matchesR_cons, show derivR (.cat .eps r) a = .alt (.cat .empty r) (derivR r a) from rfl,
      matchesR_alt, matchesR_cat_empty, matchesR_cons]
    simp

theorem matchesR_ofLits : ∀ (cs t : List Char), matchesR (ofLits cs) t = true ↔ t = cs := by
  intro cs
  induction cs with
  | nil =>
    intro t
    cases t with
    | nil => simp [matchesR_nil, ofLits, nullable]
    | cons a t =>
      rw [ofLits, matchesR_cons, show derivR Re.eps a = Re.empty from rfl, matchesR_empty]
      simp
  | cons c cs ih =>
    intro t
    cases t with
    | nil =>
      rw [ofLits, matchesR_nil]
      simp [nullable]
    | cons a t =>
      rw [ofLits, matchesR_cons]
      by_cases hac : a = c
      · subst hac
        rw [show derivR (Re.cat (Re.lit a) (ofLits cs)) a = Re.cat Re.eps (ofLits cs) from by
            simp [derivR, nullable]]
        rw [matchesR_cat_eps, ih]
        simp
      · rw [show derivR (Re.cat (Re.lit c) (ofLits cs)) a = Re.cat Re.empty (ofLits cs) from by
            simp [derivR, nullable, hac]]
        rw [matchesR_cat_empty]
        simp [hac]

theorem reSearch_ofLits_iff (p s : List Char) :
    reSearch (ofLits p) s = true ↔ SubOf p s := by
  unfold reSearch
  rw [List.any_eq_true]
  constructor
  · rintro ⟨i, _, hj⟩
    rw [List.any_eq_true] at hj
    obtain ⟨j, _, hm⟩ := hj
    rw [matchesR_ofLits] at hm
    refine ⟨s.take i, (s.drop i).drop j, ?_⟩
    rw [← hm, List.take_append_drop, List.take_append_drop]
  · rintro ⟨u, v, rfl⟩
    refine ⟨u.length, ?_, ?_⟩
    · rw [List.mem_range]
      simp only [List.length_append]
      omega
    · rw [List.any_eq_true]
      refine ⟨p.length, ?_, ?_⟩
      · rw [List.mem_range]
        simp only [List.length_append]
        omega
      · rw [List.drop_left, List.take_left, matchesR_ofLits]

theorem reSearch_ofLits (p s : List Char) : reSearch (ofLits p) s = subB p s := by
  have h1 := reSearch_ofLits_iff p s
  rw [← subB_iff p s] at h1
  exact Bool.coe_iff_coe.mp h1

/-! ## The pattern reader on metacharacter-free input -/

theorem parseQuants_nonmeta (r : Re) {cs : List Char}
    (h : ∀ c ∈ cs, c ∉ metaChars) : parseQuants r cs = (r, cs) := by
  cases cs with
  | nil => rfl
  | cons c rest =>
    have hc := h c (List.mem_cons_self c rest)
    have h1 : c ≠ '*' := fun he => hc (he ▸ (by decide))
    have h2 : c ≠ '+' := fun he => hc (he ▸ (by decide))
    have h3 : c ≠ '?' := fun he => hc (he ▸ (by decide))
    simp [parseQuants, h1, h2, h3]

theorem parseRe_atom_lit (f : Nat) (c : Char) (rest : List Char)
    (hc : c ∉ metaChars) :
    parseRe (f + 1) .atom (c :: rest) = .ok (.lit c, rest) := by
  have h1 : c ≠ '.' := fun he => hc (he ▸ (by decide))
  have h2 : c ≠ '(' := fun he => hc (he ▸ (by decide))
  simp [parseRe, h1, h2, hc]

theorem parseRe_cseq_lits : ∀ (cs : List Char) (f : Nat),
    (∀ c ∈ cs, c ∉ metaChars) → cs.length + 1 ≤ f →
    parseRe f .cseq cs = .ok (ofLits cs, []) := by
  intro cs
  induction cs with
  | nil =>
    intro f _ hf
    cases f with
    | zero => omega
    | succ f => simp [parseRe, ofLits]
  | cons c cs ih =>
    intro f h hf
    cases f with
    | zero => omega
    | succ f =>
      have hc : c ∉ metaChars := h c (List.mem_cons_self c cs)
      have hcs : ∀ c2 ∈ cs, c2 ∉ metaChars :=
        fun c2 hc2 => h c2 (List.mem_cons_of_mem c hc2)
      have hnotstop : ¬(c = ')' ∨ c = '|') := by
        rintro (rfl | rfl) <;> exact hc (by decide)
      have ha : parseRe f .atom (c :: cs) = .ok (.lit c, cs) := by
        cases f with
        | zero => exfalso; simp only [List.length_cons] at hf; omega
        | succ f2 => exact parseRe_atom_lit f2 c cs hc
      have hq : parseQuants (.lit c) cs = (.lit c, cs) := parseQuants_nonmeta _ hcs
      have hrest : parseRe f .cseq cs = .ok (ofLits cs, []) := by
        refine ih f hcs ?_
        simp at hf
        omega
      simp [parseRe, hnotstop, ha, hq, hrest, ofLits]

theorem parseRe_alts_lits (cs : List Char) (f : Nat)
    (h : ∀ c ∈ cs, c ∉ metaChars) (hf : cs.length + 2 ≤ f) :
    parseRe f .alts cs = .ok (ofLits cs, []) := by
  cases f with
  | zero => omega
  | succ f =>
    have hcat : parseRe f .cseq cs = .ok (ofLits cs, []) :=
      parseRe_cseq_lits cs f h (by omega)
    simp [parseRe, hcat]

theorem parsePattern_lits (s : String) (h : ∀ c ∈ s.data, c ∉ metaChars) :
    parsePattern s = .ok (ofLits s.data) := by
  unfold parsePattern
  rw [parseRe_alts_lits s.data (3 * s.data.length + 3) h (by omega)]

/-! ## Transfer lemmas: regex containment is literal containment for
metacharacter-free patterns -/

theorem pyContainsCF_eq (pat s : String) (h : ∀ c ∈ pat.data, c ∉ metaChars) :
    pyContainsCF pat s = subB (pyLower pat).data (pyLower s).data := by
  unfold pyContainsCF
  rw [parsePattern_lits (pyLower pat)
    (by rw [pyLower_data]; exact map_pyToLower_nonmeta h)]
  exact reSearch_ofLits _ _

theorem rowMatchesE_lits (term : String) (r : Record)
    (h : ∀ c ∈ term.data, c ∉ metaChars) :
    rowMatchesE term r = .ok (claimMatch term r) := by
  have hp : parsePattern (pyLower term) = .ok (ofLits (pyLower term).data) :=
    parsePattern_lits (pyLower term)
      (by rw [pyLower_data]; exact map_pyToLower_nonmeta h)
  unfold rowMatchesE
  rw [hp]
  show Except.ok ((rowStrs r).any fun s =>
      reSearch (ofLits (pyLower term).data) (pyLower s).data)
    = Except.ok (claimMatch term r)
  have he : (fun s => reSearch (ofLits (pyLower term).data) (pyLower s).data)
      = fun s => subB (pyLower term).data (pyLower s).data :=
    funext fun s => reSearch_ofLits _ _
  rw [he]
  rfl

theorem filterRows_lits (term : String)
    (h : ∀ c ∈ term.data, c ∉ metaChars) :
    ∀ rs : List Record, filterRows term rs = .ok (rs.filter (claimMatch term)) := by
  intro rs
  induction rs with
  | nil => rfl
  | cons r rs ih =>
    rw [show filterRows term (r :: rs)
        = match rowMatchesE term r with
          | .error e => .error e
          | .ok b =>
            match filterRows term rs with
            | .error e => .error e
            | .ok rest => .ok (if b then r :: rest else rest) from rfl]
    rw [rowMatchesE_lits term r h, ih, List.filter_cons]

theorem filterRecords_lits (term : String) (rs : List Record)
    (hne : term ≠ "") (h : ∀ c ∈ term.data, c ∉ metaChars) :
    filterRecords term rs = .ok (rs.filter (claimMatch term)) := by
  unfold filterRecords
  rw [if_neg hne]
  exact filterRows_lits term h rs

theorem claimMatch_iff (term : String) (r : Record) :
    claimMatch term r = true ↔
      ∃ s ∈ rowStrs r, SubOf (pyLower term).data (pyLower s).data := by
  unfold claimMatch
  rw [List.any_eq_true]
  constructor
  · rintro ⟨s, hs, hb⟩
    exact ⟨s, hs, (subB_iff _ _).mp hb⟩
  · rintro ⟨s, hs, hb⟩
    exact ⟨s, hs, (subB_iff _ _).mpr hb⟩

theorem calculate_kpis_eq (rs : List Record) (h : rs ≠ []) :
    calculate_kpis rs = some
      { TotalActions := rs.length
        UniqueColleges := (firstDedup (rs.map fun r => r.College)).length
        TotalSalaryDeducted := (rs.map fun r => r.Salary).sum
        EmployeeIssues := rs.countP fun r => r.Category == "Employee"
        Warnings := rs.countP fun r =>
          subB (pyLower "Warning").data (pyLower r.Action).data
        Explanations := rs.countP fun r =>
          subB (pyLower "Explanation").data (pyLower r.Action).data
        Inquiries := rs.countP fun r =>
          subB (pyLower "Inquiry").data (pyLower r.Action).data } := by
  have hW : (fun r : Record => pyContainsCF "Warning" r.Action)
      = fun r : Record => subB (pyLower "Warning").data (pyLower r.Action).data :=
    funext fun r => pyContainsCF_eq "Warning" r.Action (by decide)
  have hE : (fun r : Record => pyContainsCF "Explanation" r.Action)
      = fun r : Record => subB (pyLower "Explanation").data (pyLower r.Action).data :=
    funext fun r => pyContainsCF_eq "Explanation" r.Action (by decide)
  have hI : (fun r : Record => pyContainsCF "Inquiry" r.Action)
      = fun r : Record => subB (pyLower "Inquiry").data (pyLower r.Action).data :=
    funext fun r => pyContainsCF_eq "Inquiry" r.Action (by decide)
  have hne : rs.isEmpty = false := by
    cases rs with
    | nil => exact absurd rfl h
    | cons a l => rfl
  unfold calculate_kpis
  rw [hne, hW, hE, hI]
  rfl

/-! ## First-appearance deduplication -/

theorem mem_firstDedupAux : ∀ (l seen : List String) (x : String),
    x ∈ firstDedupAux seen l ↔ x ∈ l ∧ x ∉ seen := by
  intro l
  induction l with
  | nil => intro seen x; simp [firstDedupAux]
  | cons a l ih =>
    intro seen x
    unfold firstDedupAux
    by_cases ha : a ∈ seen
    · rw [if_pos ha, ih]
      constructor
      · rintro ⟨hx, hs⟩
        exact ⟨List.mem_cons_of_mem a hx, hs⟩
      · rintro ⟨hx, hs⟩
        rcases List.mem_cons.mp hx with rfl | hx2
        · exact absurd ha hs
        · exact ⟨hx2, hs⟩
    · rw [if_neg ha]
      constructor
      · intro hx
        rcases List.mem_cons.mp hx with rfl | hx2
        · exact ⟨List.mem_cons_self x l, ha⟩
        · obtain ⟨h1, h2⟩ := (ih (a :: seen) x).mp hx2
          exact ⟨List.mem_cons_of_mem a h1,
            fun hs => h2 (List.mem_cons_of_mem a hs)⟩
      · rintro ⟨hx, hs⟩
        rcases List.mem_cons.mp hx with rfl | hx2
        · exact List.mem_cons_self x _
        · by_cases hxa : x = a
          · subst hxa; exact List.mem_cons_self x _
          · exact List.mem_cons_of_mem a
              ((ih (a :: seen) x).mpr ⟨hx2, by
                intro hmem
                rcases List.mem_cons.mp hmem with h3 | h3
                · exact hxa h3
                · exact hs h3⟩)

theorem nodup_firstDedupAux : ∀ (l seen : List String),
    (firstDedupAux seen l).Nodup := by
  intro l
  induction l with
  | nil => intro seen; simp [firstDedupAux]
  | cons a l ih =>
    intro seen
    unfold firstDedupAux
    by_cases ha : a ∈ seen
    · rw [if_pos ha]; exact ih seen
    · rw [if_neg ha]
      refine List.nodup_cons.mpr ⟨?_, ih (a :: seen)⟩
      intro hmem
      exact ((mem_firstDedupAux l (a :: seen) a).mp hmem).2
        (List.mem_cons_self a seen)

theorem mem_firstDedup {l : List String} {x : String} :
    x ∈ firstDedup l ↔ x ∈ l := by
  unfold firstDedup
  rw [mem_firstDedupAux]
  simp

theorem nodup_firstDedup (l : List String) : (firstDedup l).Nodup :=
  nodup_firstDedupAux l []

/-! ## Column lookup and normalization -/

theorem colIdx_lt {name : String} : ∀ {hdrs : List String} {i : Nat},
    colIdx name hdrs = some i → i < hdrs.length := by
  intro hdrs
  induction hdrs with
  | nil => intro i h; cases h
  | cons h t ih =>
    intro i hi
    unfold colIdx at hi
    split at hi
    · cases hi; simp
    · obtain ⟨j, hj, rfl⟩ := Option.map_eq_some'.mp hi
      have := ih hj
      simp only [List.length_cons]
      omega

theorem renamedHeaders_length (t : RawTable) :
    (renamedHeaders t).length = t.headers.length := by
  simp [renamedHeaders]

theorem mapRows_mem {f : List Cell → Except String Record} :
    ∀ {rows : List (List Cell)} {out : List Record},
    mapRows f rows = .ok out → ∀ r ∈ out, ∃ row ∈ rows, f row = .ok r := by
  intro rows
  induction rows with
  | nil =>
    intro out h r hr
    injection h with h2
    subst h2
    cases hr
  | cons row rows ih =>
    intro out h r hr
    unfold mapRows at h
    cases hf : f row with
    | error e => rw [hf] at h; cases h
    | ok r0 =>
      rw [hf] at h
      cases hm : mapRows f rows with
      | error e => rw [hm] at h; cases h
      | ok rs =>
        rw [hm] at h
        injection h with h2
        subst h2
        rcases List.mem_cons.mp hr with rfl | hr2
        · exact ⟨row, List.mem_cons_self row rows, hf⟩
        · obtain ⟨row2, hrow2, hf2⟩ := ih hm r hr2
          exact ⟨row2, List.mem_cons_of_mem row hrow2, hf2⟩

theorem mapRows_ok_of_forall {f : List Cell → Except String Record} :
    ∀ {rows : List (List Cell)},
    (∀ row ∈ rows, ∃ r, f row = .ok r) →
    ∃ out, mapRows f rows = .ok out ∧ out.length = rows.length := by
  intro rows
  induction rows with
  | nil => intro _; exact ⟨[], rfl, rfl⟩
  | cons row rows ih =>
    intro h
    obtain ⟨r0, hr0⟩ := h row (List.mem_cons_self row rows)
    obtain ⟨out, hout, hlen⟩ :=
      ih fun row2 h2 => h row2 (List.mem_cons_of_mem row h2)
    refine ⟨r0 :: out, ?_, by simp [hlen]⟩
    unfold mapRows
    rw [hr0, hout]

theorem normalize_rows {t : RawTable} {out : List Record}
    (h : normalize t = .ok out) :
    mapRows (buildRecord (renamedHeaders t)) t.rows = .ok out := by
  unfold normalize at h
  split at h
  · exact h
  · cases h

theorem normalize_mem {t : RawTable} {out : List Record}
    (h : normalize t = .ok out) :
    ∀ r ∈ out, ∃ row ∈ t.rows, buildRecord (renamedHeaders t) row = .ok r :=
  mapRows_mem (normalize_rows h)

theorem buildRecord_fields {hdrs : List String} {row : List Cell} {r : Record}
    (h : buildRecord hdrs row = .ok r) :
    r.Gender = colCell hdrs row "Gender" ∧ r.Type' = colCell hdrs row "Type"
    ∧ r.Name = colCell hdrs row "Name"
    ∧ r.Designation = colCell hdrs row "Designation"
    ∧ coerceSalary (colCell hdrs row "Salary") = .ok r.Salary := by
  unfold buildRecord at h
  cases hc : coerceSalary (colCell hdrs row "Salary") with
  | error e => rw [hc] at h; cases h
  | ok sal =>
    rw [hc] at h
    injection h with h2
    subst h2
    exact ⟨rfl, rfl, rfl, rfl, rfl⟩

theorem decTrunc_nonneg {d : Dec} (h : 0 ≤ d.num) : 0 ≤ decTrunc d := by
  unfold decTrunc
  rw [if_pos h]
  exact Int.natCast_nonneg _

theorem coerceSalary_na : coerceSalary Cell.na = .ok 0 := rfl

theorem coerceSalary_s (v : String) :
    coerceSalary (Cell.s v) = castSalary (parsePyNum? (pyStrip v).data) := rfl

theorem castSalary_none : castSalary none = .ok 0 := rfl

theorem castSalary_fin (d : Dec) :
    castSalary (some (.fin d)) =
      if decOverflows d then
        .error "Cannot convert non-finite values (NA or inf) to integer"
      else .ok (decTrunc d) := rfl

theorem castSalary_pinf :
    castSalary (some .pinf)
      = .error "Cannot convert non-finite values (NA or inf) to integer" := rfl

theorem castSalary_ninf :
    castSalary (some .ninf)
      = .error "Cannot convert non-finite values (NA or inf) to integer" := rfl

/-! ## Grouped counts -/

theorem value_counts_mem {ls : List String} {p : String × Nat}
    (hp : p ∈ value_counts ls) : p.1 ∈ ls ∧ p.2 = ls.count p.1 := by
  unfold value_counts at hp
  rw [(List.perm_insertionSort cntGE _).mem_iff] at hp
  obtain ⟨l, hl, rfl⟩ := List.mem_map.mp hp
  exact ⟨mem_firstDedup.mp hl, rfl⟩

theorem value_counts_pairwise (ls : List String) :
    (value_counts ls).Pairwise fun p q => p.1 ≠ q.1 := by
  unfold value_counts
  rw [(List.perm_insertionSort cntGE _).pairwise_iff fun h => Ne.symm h]
  rw [List.pairwise_map]
  have := nodup_firstDedup ls
  rw [List.Nodup] at this
  exact this.imp fun h => h

/-- The table with no columns and no rows. -/
def emptyTable : RawTable := { headers := [], rows := [] }

/-! ## The claims -/

/-- C1 (corrected): lines 196-200.  An empty search term returns all
records unchanged in original order.  A nonempty term is interpreted as
a regular expression (pandas str.contains default), not always as a
literal substring: for every term free of regex metacharacters the
engine returns exactly the list filter by the per-field OR predicate
claimMatch — each of the ten field string forms lower-cased and tested
independently for containment of the lower-cased term, original
relative order preserved and the input left unchanged — and claimMatch
holds exactly when some field contains the term as a literal substring
after lowering. -/
theorem claimC1_filter (term : String) (rs : List Record) :
    (term = "" → filterRecords term rs = .ok rs)
    ∧ (term ≠ "" → (∀ c ∈ term.data, c ∉ metaChars) →
        filterRecords term rs = .ok (rs.filter (claimMatch term)))
    ∧ (∀ r : Record, claimMatch term r = true ↔
        ∃ s ∈ rowStrs r, SubOf (pyLower term).data (pyLower s).data) :=
  ⟨fun h => by rw [h]; rfl,
   fun h1 h2 => filterRecords_lits term rs h1 h2,
   claimMatch_iff term⟩

/-- C1 counterexample: with the search term "." (a regex metacharacter)
on the one-record set [demoRec], the filter returns the record although
no field of it contains the literal substring "." — the containment
test is regex search, so the claim as stated fails. -/
theorem claimC1_filter_cex :
    filterRecords "." [demoRec] = .ok [demoRec]
    ∧ List.filter (claimMatch ".") [demoRec] = [] := ⟨rfl, rfl⟩

/-- C1 witness: the amended filter contract at the concrete
metacharacter-free term "ab" on [demoRec]. -/
theorem claimC1_filter_w :
    filterRecords "ab" [demoRec] = .ok (List.filter (claimMatch "ab") [demoRec]) :=
  (claimC1_filter "ab" [demoRec]).2.1 (by decide) (by decide)

/-- C10 (confirmed): the filter treats the search term as a regular
expression (pandas str.contains with default regex=True): for every
nonempty term free of regex metacharacters the result equals literal
case-insensitive substring filtering, while the metacharacter term "("
makes the operation raise instead of returning a subset, and the
metacharacter term "." matches a record none of whose fields contain
"." literally. -/
theorem claimC10_regex :
    (∀ (term : String) (rs : List Record), term ≠ "" →
        (∀ c ∈ term.data, c ∉ metaChars) →
        filterRecords term rs = .ok (rs.filter (claimMatch term)))
    ∧ filterRecords "(" [negRec] = .error "missing ), unterminated subpattern"
    ∧ filterRecords "." [negRec] = .ok [negRec]
    ∧ List.filter (claimMatch ".") [negRec] = [] :=
  ⟨fun term rs h1 h2 => filterRecords_lits term rs h1 h2, rfl, rfl, rfl⟩

/-- C10 witness: the regex-equals-substring half at the concrete term
"xy" on [negRec]. -/
theorem claimC10_regex_w :
    filterRecords "xy" [negRec] = .ok (List.filter (claimMatch "xy") [negRec]) :=
  claimC10_regex.1 "xy" [negRec] (by decide) (by decide)

/-- C2 (corrected): for any input table whose headers are pairwise
distinct after whitespace stripping and the fixed renaming — in
particular any table not carrying both an original and a renamed
spelling of the same canonical column — and whose Salary cells all pass
the integer cast (no IEEE infinity and no literal overflowing float64,
which make astype(int) raise instead), normalization succeeds, the
output has exactly the ten canonical columns in the fixed order of
COLUMNS_TO_KEEP, and the output row count equals the input row count;
the empty table yields a zero-row output rather than an error. -/
theorem claimC2_normalizer (t : RawTable) (h : (renamedHeaders t).Nodup)
    (hsal : ∀ row ∈ t.rows, ∃ n,
      coerceSalary (colCell (renamedHeaders t) row "Salary") = .ok n) :
    ∃ out, normalize t = .ok out ∧ out.length = t.rows.length
      ∧ COLUMNS_TO_KEEP = ["District", "College", "Gender", "Type",
          "Category", "Action", "Name", "Designation", "Salary", "Reason"]
      ∧ (out.all fun r => (rowStrs r).length == COLUMNS_TO_KEEP.length) = true := by
  have hrows : ∀ row ∈ t.rows, ∃ r, buildRecord (renamedHeaders t) row = .ok r := by
    intro row hrow
    obtain ⟨n, hn⟩ := hsal row hrow
    cases hb : buildRecord (renamedHeaders t) row with
    | error e =>
      exfalso
      unfold buildRecord at hb
      rw [hn] at hb
      cases hb
    | ok r => exact ⟨r, rfl⟩
  obtain ⟨out, hout, hlen⟩ := mapRows_ok_of_forall hrows
  refine ⟨out, ?_, hlen, rfl, ?_⟩
  · unfold normalize
    rw [if_pos h]
    exact hout
  · rw [List.all_eq_true]
    intro r _
    rfl

/-- C2 counterexample: a table with the extra header Gender next to
College Gender has duplicate labels after the rename, so normalization
raises the pandas duplicate-label error and produces no record set at
all, contradicting the claim for this input. -/
theorem claimC2_normalizer_cex :
    normalize dupTable = .error "cannot reindex on an axis with duplicate labels"
    ∧ (normalize dupTable).toOption = none := ⟨rfl, rfl⟩

/-- C2 witness: the amended normalizer contract at the empty table. -/
theorem claimC2_normalizer_w :
    ∃ out, normalize emptyTable = .ok out ∧ out.length = emptyTable.rows.length
      ∧ COLUMNS_TO_KEEP = ["District", "College", "Gender", "Type",
          "Category", "Action", "Name", "Designation", "Salary", "Reason"]
      ∧ (out.all fun r => (rowStrs r).length == COLUMNS_TO_KEEP.length) = true :=
  claimC2_normalizer emptyTable (by decide)
    (fun row hrow => absurd hrow (List.not_mem_nil row))

/-- C3 (confirmed): Salary coercion attempts a numeric parse per cell,
substitutes 0 on parse failure — so a malformed Salary cell never
aborts the load — and truncates every parsed finite in-range value to
an integer: "" gives 0, "12000" gives 12000, "abc" gives 0 and "7.9"
gives 7.  Only a well-formed non-finite cell (an infinity spelling or a
float64-overflowing literal) escapes this and aborts the load, which is
the counterexample. -/
theorem claimC3_salary :
    (∀ v : String, parsePyNum? (pyStrip v).data = none →
        coerceSalary (Cell.s v) = .ok 0)
    ∧ (∀ (v : String) (d : Dec),
        parsePyNum? (pyStrip v).data = some (.fin d) →
        decOverflows d = false → coerceSalary (Cell.s v) = .ok (decTrunc d))
    ∧ coerceSalary (Cell.s "") = .ok 0
    ∧ coerceSalary (Cell.s "12000") = .ok 12000
    ∧ coerceSalary (Cell.s "abc") = .ok 0
    ∧ coerceSalary (Cell.s "7.9") = .ok 7
    ∧ (normalize salTable).toOption.map (fun rs => rs.map fun r => r.Salary)
        = some [0, 12000, 0, 7] := by
  refine ⟨?_, ?_, rfl, rfl, rfl, rfl, by decide⟩
  · intro v h
    rw [coerceSalary_s, h, castSalary_none]
  · intro v d h hov
    rw [coerceSalary_s, h, castSalary_fin]
    simp [hov]

/-- C3 counterexample: the Salary cell "inf" is not malformed — it
parses to an infinity — yet normalization of its row does not produce
an integer: astype(int) raises the non-finite cast error and the load
aborts, refuting the per-row truncation promise. -/
theorem claimC3_salary_cex :
    normalize infTable
        = .error "Cannot convert non-finite values (NA or inf) to integer"
    ∧ (normalize infTable).toOption = none
    ∧ parsePyNum? (pyStrip "inf").data = some PyNum.pinf := ⟨rfl, rfl, rfl⟩

/-- C3 witness: the parse-failure and finite-truncation halves at the
concrete cells "abc" and "7.9". -/
theorem claimC3_salary_w :
    coerceSalary (Cell.s "abc") = .ok 0
    ∧ coerceSalary (Cell.s "7.9") = .ok (decTrunc { num := 79, exp10 := 1 }) :=
  ⟨claimC3_salary.1 "abc" (by decide),
   claimC3_salary.2.1 "7.9" { num := 79, exp10 := 1 } (by decide) (by decide)⟩

/-- C4 (confirmed): for every non-empty record set the KPI summary counts
Warnings, Explanations and Inquiries as the number of records whose
Action contains, case-insensitively, the corresponding word as a
substring (containment being the existence of a decomposition, per the
subB characterization), not as the number of exact matches: the Action
"Final Warning" satisfies the Warning predicate while differing from
"Warning". -/
theorem claimC4_kpi_counts (rs : List Record) (h : rs ≠ []) :
    ∃ k, calculate_kpis rs = some k
      ∧ k.Warnings = rs.countP (fun r =>
          subB (pyLower "Warning").data (pyLower r.Action).data)
      ∧ k.Explanations = rs.countP (fun r =>
          subB (pyLower "Explanation").data (pyLower r.Action).data)
      ∧ k.Inquiries = rs.countP (fun r =>
          subB (pyLower "Inquiry").data (pyLower r.Action).data)
      ∧ (∀ pat act : String, subB (pyLower pat).data (pyLower act).data = true
          ↔ SubOf (pyLower pat).data (pyLower act).data)
      ∧ subB (pyLower "Warning").data (pyLower "Final Warning").data = true
      ∧ "Final Warning" ≠ "Warning" :=
  ⟨_, calculate_kpis_eq rs h, rfl, rfl, rfl,
    fun pat act => subB_iff _ _, by decide, by decide⟩

/-- C4 witness: the KPI substring-count contract at the one-record set
[demoRec]. -/
theorem claimC4_kpi_counts_w :
    ∃ k, calculate_kpis [demoRec] = some k
      ∧ k.Warnings = [demoRec].countP (fun r =>
          subB (pyLower "Warning").data (pyLower r.Action).data)
      ∧ k.Explanations = [demoRec].countP (fun r =>
          subB (pyLower "Explanation").data (pyLower r.Action).data)
      ∧ k.Inquiries = [demoRec].countP (fun r =>
          subB (pyLower "Inquiry").data (pyLower r.Action).data)
      ∧ (∀ pat act : String, subB (pyLower pat).data (pyLower act).data = true
          ↔ SubOf (pyLower pat).data (pyLower act).data)
      ∧ subB (pyLower "Warning").data (pyLower "Final Warning").data = true
      ∧ "Final Warning" ≠ "Warning" :=
  claimC4_kpi_counts [demoRec] (by decide)

/-- C5 (corrected): on the normalized fallback dataset the KPI summary
has TotalActions = 15 and UniqueColleges = 7 — the number of distinct
College strings actually embedded in MOCK_CSV_DATA — and Warnings is at
least the number of rows whose Action is exactly "Warning". -/
theorem claimC5_fallback_kpis :
    ∃ k, calculate_kpis fallbackRecords = some k
      ∧ k.TotalActions = 15 ∧ k.UniqueColleges = 7
      ∧ fallbackRecords.countP (fun r => r.Action == "Warning") ≤ k.Warnings :=
  ⟨_, calculate_kpis_eq fallbackRecords (by decide),
    by decide, by decide, by decide⟩

/-- C5 counterexample: the fallback dataset embeds only 7 distinct
College strings, so UniqueColleges of its KPI summary is 7 and not 9 as
claimed. -/
theorem claimC5_fallback_kpis_cex :
    ((calculate_kpis fallbackRecords).map fun k => k.UniqueColleges) ≠ some 9
    ∧ ((calculate_kpis fallbackRecords).map fun k => k.UniqueColleges) = some 7 :=
  ⟨by decide, by decide⟩

/-- C6 (corrected): on the fallback dataset the search term "proxy"
returns exactly the records that contain "proxy" case-insensitively —
precisely the records with Reason "Proxy Attendance" — and there are 6
of them, not 5. -/
theorem claimC6_proxy :
    filterRecords "proxy" fallbackRecords
        = .ok (fallbackRecords.filter (claimMatch "proxy"))
    ∧ (fallbackRecords.filter (claimMatch "proxy")).length = 6
    ∧ ((fallbackRecords.filter (claimMatch "proxy")).all fun r =>
        r.Reason == "Proxy Attendance") = true
    ∧ (fallbackRecords.countP fun r => r.Reason == "Proxy Attendance") = 6 :=
  ⟨filterRecords_lits "proxy" fallbackRecords (by decide) (by decide),
    by decide, by decide, by decide⟩

/-- C6 counterexample: the "proxy" filter on the fallback dataset returns
6 records, not the 5 the claim names — MOCK_CSV_DATA embeds six rows
with Reason "Proxy Attendance". -/
theorem claimC6_proxy_cex :
    ((filterRecords "proxy" fallbackRecords).toOption.map List.length) = some 6
    ∧ ((filterRecords "proxy" fallbackRecords).toOption.map List.length) ≠ some 5 := by
  have h := filterRecords_lits "proxy" fallbackRecords (by decide) (by decide)
  rw [h]
  exact ⟨by decide, by decide⟩

/-- C7 (confirmed): for every record set, topReasons(records, 5) returns
at most 5 groups; each group is labelled by an actual Reason value with
count the exact number of records carrying that Reason (grouping by
exact string value); labels are pairwise distinct; and the list is
ordered descending by count, so the first group carries the highest
count, unique among the returned groups unless tied. -/
theorem claimC7_topReasons (rs : List Record) :
    (topReasons rs 5).length ≤ 5
    ∧ (∀ p ∈ topReasons rs 5,
        p.1 ∈ rs.map (fun r => r.Reason)
        ∧ p.2 = (rs.map fun r => r.Reason).count p.1)
    ∧ ((topReasons rs 5).Pairwise fun p q => p.1 ≠ q.1)
    ∧ (topReasons rs 5).Sorted cntGE := by
  unfold topReasons
  refine ⟨?_, ?_, ?_, ?_⟩
  · exact List.length_take_le 5 _
  · intro p hp
    have hp2 : p ∈ List.insertionSort cntGE (value_counts (rs.map fun r => r.Reason)) :=
      List.take_subset 5 _ hp
    rw [(List.perm_insertionSort cntGE _).mem_iff] at hp2
    have hv := value_counts_mem hp2
    exact ⟨hv.1, hv.2⟩
  · refine List.Pairwise.sublist (List.take_sublist 5 _) ?_
    rw [(List.perm_insertionSort cntGE _).pairwise_iff fun h => Ne.symm h]
    exact value_counts_pairwise _
  · exact List.Pairwise.sublist (List.take_sublist 5 _)
      (List.sorted_insertionSort cntGE _)

/-- C7 witness: the top-reasons contract at the one-record set [demoRec],
whose single group is the empty Reason with count 1. -/
theorem claimC7_topReasons_w :
    (topReasons [demoRec] 5).length ≤ 5
    ∧ (("", 1).1 ∈ [demoRec].map (fun r => r.Reason)
        ∧ ("", 1).2 = ([demoRec].map fun r => r.Reason).count ("", 1).1) :=
  ⟨(claimC7_topReasons [demoRec]).1,
    (claimC7_topReasons [demoRec]).2.1 ("", 1) (by decide)⟩

/-- C8 (confirmed): when the fetch of a supplied locator fails with any
error text, load_data catches the failure, surfaces the user-visible
message embedding the failure detail, and returns the empty record set
instead of letting the exception propagate. -/
theorem claimC8_load_failure (url e : String) (h : url ≠ "") :
    load_data (Fetched.err e) url =
      (some ("Error loading data from URL. Please check the link format. Details: "
          ++ e),
       Except.ok []) := by
  unfold load_data
  rw [if_neg h]

/-- C8 witness: the failure contract at the concrete locator "u" and
failure detail "boom". -/
theorem claimC8_load_failure_w :
    load_data (Fetched.err "boom") "u" =
      (some ("Error loading data from URL. Please check the link format. Details: "
          ++ "boom"),
       Except.ok []) :=
  claimC8_load_failure "u" "boom" (by decide)

/-- C9 (corrected): in a normalized record set, Salary is the truncated
numeric parse of its cell and need not be non-negative in general;
whenever every cell of every input row is present (not NaN) and no
Salary cell parses to a negative number (salaries staying inside the
int64 range, beyond which the cast is platform-undefined), every
record satisfies Salary ≥ 0 and none of the four uncleaned fields
Gender, Type, Name, Designation is NaN (columns absent from the input
are filled with the empty string, and the five cleaned fields are
strings by construction).  The int64 bound is not needed by the model
proof; it scopes the claim to where the modelled cast agrees with the
platform cast. -/
theorem claimC9_invariants (t : RawTable) (out : List Record) (r : Record)
    (hok : normalize t = .ok out) (hr : r ∈ out)
    (hpresent : ∀ row ∈ t.rows, ∀ i < t.headers.length,
        row.getD i Cell.na ≠ Cell.na)
    (hsal : ∀ row ∈ t.rows, ∀ (v : String) (d : Dec),
        colCell (renamedHeaders t) row "Salary" = Cell.s v →
        parsePyNum? (pyStrip v).data = some (.fin d) →
        0 ≤ d.num ∧ d.num < (2 ^ 63 : Int) * 10 ^ d.exp10) :
    0 ≤ r.Salary ∧ r.Gender ≠ Cell.na ∧ r.Type' ≠ Cell.na
      ∧ r.Name ≠ Cell.na ∧ r.Designation ≠ Cell.na := by
  obtain ⟨row, hrow, hbuild⟩ := normalize_mem hok r hr
  obtain ⟨hg, ht', hn, hd, hs⟩ := buildRecord_fields hbuild
  have hlen := renamedHeaders_length t
  have hfield : ∀ name, colCell (renamedHeaders t) row name ≠ Cell.na := by
    intro name
    unfold colCell
    cases hidx : colIdx name (renamedHeaders t) with
    | none =>
      show Cell.s "" ≠ Cell.na
      decide
    | some i =>
      have hi : i < t.headers.length := hlen ▸ colIdx_lt hidx
      exact hpresent row hrow i hi
  refine ⟨?_, by rw [hg]; exact hfield "Gender",
    by rw [ht']; exact hfield "Type", by rw [hn]; exact hfield "Name",
    by rw [hd]; exact hfield "Designation"⟩
  cases hc : colCell (renamedHeaders t) row "Salary" with
  | na =>
    rw [hc, coerceSalary_na] at hs
    injection hs with h2
    omega
  | s v =>
    rw [hc, coerceSalary_s] at hs
    cases hp : parsePyNum? (pyStrip v).data with
    | none =>
      rw [hp, castSalary_none] at hs
      injection hs with h2
      omega
    | some pn =>
      rw [hp] at hs
      cases pn with
      | fin d =>
        rw [castSalary_fin] at hs
        by_cases hov : decOverflows d
        · rw [if_pos hov] at hs
          cases hs
        · rw [if_neg hov] at hs
          injection hs with h2
          have hd0 := (hsal row hrow v d hc hp).1
          rw [← h2]
          exact decTrunc_nonneg hd0
      | pinf => rw [castSalary_pinf] at hs; cases hs
      | ninf => rw [castSalary_ninf] at hs; cases hs

/-- C9 counterexample: the table with a missing Gender cell and the
Salary cell "-5" normalizes to a record whose Salary is the negative
integer -5 and whose Gender field is the missing-value marker — both
claimed invariants fail on the code. -/
theorem claimC9_invariants_cex :
    normalize negTable = .ok [negRec]
    ∧ negRec.Salary < 0 ∧ negRec.Gender = Cell.na := ⟨rfl, by decide, rfl⟩

/-- C9 witness: the amended invariants at the one-cell table wTable,
whose record is wRec. -/
theorem claimC9_invariants_w :
    0 ≤ wRec.Salary ∧ wRec.Gender ≠ Cell.na ∧ wRec.Type' ≠ Cell.na
      ∧ wRec.Name ≠ Cell.na ∧ wRec.Designation ≠ Cell.na :=
  claimC9_invariants wTable [wRec] wRec (by rfl) (by simp) (by decide)
    (by
      intro row hrow v d hv hd
      rw [show wTable.rows = [[Cell.s "M"]] from rfl,
        List.mem_singleton] at hrow
      subst hrow
      rw [show colCell (renamedHeaders wTable) [Cell.s "M"] "Salary"
          = Cell.s "" from rfl] at hv
      injection hv with hv2
      subst hv2
      rw [show parsePyNum? (pyStrip "").data = none from rfl] at hd
      exact Option.noConfusion hd)

end HED
